import Mathlib

/-!
Verification of the LlmImageCreator persistent store and generation
orchestrator, shallowly embedded from `src/storage.js`, `src/agent.js`
and the OpenRouter module.  Pure functions of the JavaScript source are
translated as Lean functions; OPFS directories are explicit list-valued
states; fallible I/O boundaries (OPFS handles, `atob`) are oracles that
say whether the underlying operation succeeds.  Strings from JavaScript
are modelled as lists of characters.
-/

namespace LlmImageCreator

/-! ## JavaScript primitive semantics -/

/-- The JavaScript whitespace characters relevant to `parseInt` /
`String.prototype.trim` (ASCII subset; the app never stores exotic
Unicode spaces). -/
def jsWhitespace (c : Char) : Bool :=
  c = ' ' || c = '\t' || c = '\n' || c = '\r' || c = '\x0b' || c = '\x0c'

/-- Numeric value accumulated left-to-right over decimal digit
characters, as `parseInt` does once the digit run is isolated. -/
def digitsVal (a : Nat) (ds : List Char) : Nat :=
  ds.foldl (fun x c => x * 10 + (c.toNat - 48)) a

/-- The digit phase of `parseInt`: take the leading run of decimal digits;
no digits means NaN (`none`). -/
def parseDigits (s : List Char) : Option Nat :=
  let ds := s.takeWhile Char.isDigit
  if ds.isEmpty then none else some (digitsVal 0 ds)

/-- JavaScript `parseInt(s, 10)`: skip leading whitespace, optional
sign, then the longest leading digit run; `none` models NaN. -/
def jsParseInt (s : List Char) : Option Int :=
  match s.dropWhile jsWhitespace with
  | [] => none
  | c :: rest =>
    if c = '-' then (parseDigits rest).map (fun n => -(n : Int))
    else if c = '+' then (parseDigits rest).map (fun n => (n : Int))
    else (parseDigits (c :: rest)).map (fun n => (n : Int))

/-- JavaScript `String.prototype.trim`: strip whitespace from both
ends. -/
def jsTrim (s : List Char) : List Char :=
  ((s.dropWhile jsWhitespace).reverse.dropWhile jsWhitespace).reverse

/-- Decimal digit characters of a positive number, accumulator style:
JavaScript `String(n)` for the positive integers the store produces. -/
def natToDecAux (n : Nat) (acc : List Char) : List Char :=
  if h : n = 0 then acc
  else natToDecAux (n / 10) (Char.ofNat (48 + n % 10) :: acc)
  termination_by n
  decreasing_by
    exact Nat.div_lt_self (Nat.pos_of_ne_zero h) (by norm_num)

/-- JavaScript `String(n)` on a natural number. -/
def natToDec (n : Nat) : List Char :=
  if n = 0 then ['0'] else natToDecAux n []

/-- Whether `pat` is a prefix of `s` (character-exact match). -/
def matchesAt : List Char → List Char → Bool
  | [], _ => true
  | _ :: _, [] => false
  | p :: ps, c :: cs => p = c && matchesAt ps cs

/-- JavaScript `s.endsWith(pat)`. -/
def listEndsWith (s pat : List Char) : Bool :=
  matchesAt pat.reverse s.reverse

/-- JavaScript `s.replace(pat, "")` with a string pattern: remove the
first occurrence of `pat`, leave everything else unchanged. -/
def listReplaceFirst : List Char → List Char → List Char
  | [], _ => []
  | c :: rest, pat =>
    if matchesAt pat (c :: rest) then (c :: rest).drop pat.length
    else c :: listReplaceFirst rest pat

/-! ## Data model (`conversation.json` / `summary.json` shapes)

Optional JSON fields are `Option`; JavaScript truthiness on a string is
`≠ ""`, on a number `≠ 0`, on an array always true, on `null`/absent
false. -/

/-- `entry.message` of a ConversationEntry. -/
structure EntryMessage where
  systemPrompt : String
  text : String
  seed : Option Int
  deriving Repr, DecidableEq

/-- One element shape inside the `images` array of a chat message. -/
structure ImageUrlObj where
  url : Option String
  deriving Repr, DecidableEq

/-- One element of `message.images` in the API response. -/
structure ImageObj where
  image_url : Option ImageUrlObj
  deriving Repr, DecidableEq

/-- `choices[i].message` of an OpenRouter chat completion response. -/
structure ChatMessage where
  content : Option String
  images : Option (List ImageObj)
  deriving Repr, DecidableEq

/-- One element of `choices` in the API response. -/
structure Choice where
  message : ChatMessage
  deriving Repr, DecidableEq

/-- The OpenRouter chat completion response shape the core depends on. -/
structure ChatResponse where
  id : String
  choices : Option (List Choice)
  deriving Repr, DecidableEq

/-- `entry.response` of a ConversationEntry.  `generationData` is an
opaque usage/cost payload. -/
structure EntryResponse where
  text : Option String
  imageFilenames : Option (List String)
  imageResolutions : Option (List String)
  responseData : Option ChatResponse
  generationData : Option String
  deriving Repr, DecidableEq

/-- One conversation turn. -/
structure ConversationEntry where
  message : EntryMessage
  response : EntryResponse
  deriving Repr, DecidableEq

/-- The persisted Conversation record. -/
structure Conversation where
  timestamp : Nat
  entries : List ConversationEntry
  deriving Repr, DecidableEq

/-- `summary.json`: derived, denormalized per-conversation metadata. -/
structure ConversationSummary where
  title : String
  imageCount : Nat
  entryCount : Nat
  created : Nat
  updated : Nat
  deriving Repr, DecidableEq

/-! ## OPFS directory states -/

/-- One child of an OPFS directory, as seen by `values()`: a name and a
kind (`file` or `directory`). -/
structure DirEntry where
  name : List Char
  isFile : Bool
  deriving Repr, DecidableEq

/-- The characters of the string ".png". -/
def pngChars : List Char := ['.', 'p', 'n', 'g']

/-! ## storage.js -/

/-- The loop body of `getNextImageIndex`: a file named `*.png` whose
name (first ".png" occurrence removed) `parseInt`s to a number larger
than the running maximum raises it; everything else leaves it. -/
def maxPngStep (maxIndex : Int) (entry : DirEntry) : Int :=
  if entry.isFile && listEndsWith entry.name pngChars then
    match jsParseInt (listReplaceFirst entry.name pngChars) with
    | some num => if maxIndex < num then num else maxIndex
    | none => maxIndex
  else maxIndex

/-- The loop of `getNextImageIndex`: running maximum over the images
directory, started at 0. -/
def maxPngIndex (imagesDir : List DirEntry) : Int :=
  imagesDir.foldl maxPngStep 0

/-- `getNextImageIndex(imagesDir)`: the running maximum plus one. -/
def getNextImageIndex (imagesDir : List DirEntry) : Int :=
  maxPngIndex imagesDir + 1

/-- `saveImage(timestamp, imageData)` acting on the per-conversation
images directory.  `ok` is the oracle for the fallible boundary (the
conversation directory exists, `atob` decodes, the OPFS write
completes): when it fails the function catches, writes nothing and
returns `null`; otherwise it writes `String(nextIndex) + ".png"` and
returns the index. -/
def saveImage (imagesDir : List DirEntry) (ok : Bool) :
    Option Int × List DirEntry :=
  if ok then
    let nextIndex := getNextImageIndex imagesDir
    (some nextIndex,
      imagesDir ++ [⟨natToDec nextIndex.toNat ++ pngChars, true⟩])
  else (none, imagesDir)

/-- A sequence of `saveImage` calls on one conversation, given the
success oracle of each call; returns the indices of the successful
saves in order, and the final images directory. -/
def runSaves : List Bool → List DirEntry → List Int × List DirEntry
  | [], imagesDir => ([], imagesDir)
  | ok :: oks, imagesDir =>
    match saveImage imagesDir ok with
    | (some idx, dir') =>
      let r := runSaves oks dir'
      (idx :: r.1, r.2)
    | (none, dir') => runSaves oks dir'

/-- `deleteImagesForConversation(timestamp)`: removes every entry of
the images directory. -/
def deleteImagesForConversation (_imagesDir : List DirEntry) :
    List DirEntry := []

/-- `listConversations()`: over the children of the conversations
directory, keep the directories whose name `parseInt`s to a number,
and sort the numbers descending (`sort(function(a, b) { return b - a; })`).
`ioError` is the oracle for the storage boundary: any error is caught
and yields `[]`. -/
def listConversations (convsDir : List DirEntry) (ioError : Bool) :
    List Int :=
  if ioError then []
  else
    let timestamps := convsDir.foldl
      (fun ts entry =>
        if entry.isFile then ts
        else
          match jsParseInt entry.name with
          | some num => ts ++ [num]
          | none => ts)
      []
    List.insertionSort (fun a b => b ≤ a) timestamps

/-- `getPreference(key, defaultValue)` acting on the state of the
preference file: `stored` is the file content (`none` when the file is absent),
`readFails` the oracle for an unreadable file; `defaultValue = none`
models the argument being omitted, and the result `none` models
JavaScript `null`. -/
def getPreference (stored : Option (List Char)) (readFails : Bool)
    (defaultValue : Option (List Char)) : Option (List Char) :=
  if readFails then defaultValue
  else
    match stored with
    | none => defaultValue
    | some content =>
      if content ≠ [] ∧ (jsTrim content).length > 0 then
        some (jsTrim content)
      else defaultValue

/-- The per-conversation slice of OPFS that `loadConversation` /
`saveConversation` / `saveSummary` / `loadSummary` touch: the parsed
content of `conversation.json` and `summary.json` (absent = `none`).
JSON serialization of these plain records is faithful, so the store
holds the structured values. -/
structure ConvStore where
  conv : Option Conversation
  summ : Option ConversationSummary
  deriving Repr, DecidableEq

/-- The legacy-record normalization inside `loadConversation`: an entry
with `imageFilenames` but without `imageResolutions` gets
`imageResolutions = imageFilenames.map(() => "1K")`.  (An empty
`imageResolutions` array is truthy in JavaScript, so only an absent
field is rewritten.) -/
def normalizeEntry (entry : ConversationEntry) : ConversationEntry :=
  match entry.response.imageFilenames, entry.response.imageResolutions with
  | some fns, none =>
    { entry with response :=
      { entry.response with
        imageResolutions := some (fns.map (fun _ => "1K")) } }
  | _, _ => entry

/-- The normalization pass of `loadConversation` over `conversation.entries`. -/
def normalizeConversation (c : Conversation) : Conversation :=
  { c with entries := c.entries.map normalizeEntry }

/-- `loadConversation(timestamp)`: parse `conversation.json` and apply
the legacy normalization; any failure (missing directory or file,
corrupt JSON) is caught and yields `null`. -/
def loadConversation (st : ConvStore) : Option Conversation :=
  st.conv.map normalizeConversation

/-- `saveConversation(timestamp, conversationData)`: serialize the
whole record and overwrite `conversation.json`. -/
def saveConversation (st : ConvStore) (conversationData : Conversation) :
    ConvStore :=
  { st with conv := some conversationData }

/-- `loadSummary(timestamp)`: parse `summary.json`, `null` on failure. -/
def loadSummary (st : ConvStore) : Option ConversationSummary :=
  st.summ

/-- `saveSummary(timestamp, summaryData)`: overwrite `summary.json`. -/
def saveSummary (st : ConvStore) (summaryData : ConversationSummary) :
    ConvStore :=
  { st with summ := some summaryData }

/-- What `createConversation()` returns and which directory it ensures. -/
structure CreateConversationResult where
  timestamp : Nat
  createdDir : Option (List Char)
  deriving Repr, DecidableEq

/-- `createConversation()`: mints `Math.floor(Date.now() / 1000)` from
the clock (`nowMs` in milliseconds), ensures
`conversations/String(timestamp)/images`, and returns the timestamp
even when the directory creation fails (`ioFails` oracle). -/
def createConversation (nowMs : Nat) (ioFails : Bool) :
    CreateConversationResult :=
  let timestamp := nowMs / 1000
  if ioFails then ⟨timestamp, none⟩
  else ⟨timestamp, some (natToDec timestamp)⟩

/-- The call site `createConversation(currentConversation.timestamp)` in
`handleGenerate` (src/agent.js line 831): `createConversation` declares
no parameter, so the passed argument is ignored. -/
def createConversationCalledWith (_arg : Nat) (nowMs : Nat)
    (ioFails : Bool) : CreateConversationResult :=
  createConversation nowMs ioFails

/-! ## openrouter.js (part_005): response validation -/

/-- The system prompt constant. -/
def SYSTEM_PROMPT : String :=
  "Generate an image according to the instructions of the user."

/-- The result-validation tail of `generateImage`: `outcome` is the
HTTP boundary (network error or non-ok status reject with a message;
otherwise the parsed JSON body).  A body without choices, or whose
first message has a missing or empty `images` array, is rejected. -/
def generateImageResult (outcome : Except String ChatResponse) :
    Except String ChatResponse :=
  match outcome with
  | .error e => .error e
  | .ok data =>
    match data.choices with
    | none => .error "No choices returned from OpenRouter"
    | some [] => .error "No choices returned from OpenRouter"
    | some (choice :: _) =>
      match choice.message.images with
      | none => .error "No images returned by model"
      | some [] => .error "No images returned by model"
      | some (_ :: _) => .ok data

/-! ## agent.js: image extraction and entry construction -/

/-- `extractImageUrls(response)`: from the message of the first choice, when
its `images` array is present and nonempty, collect
`imgObj.image_url.url` for every element where both are truthy (a
present object, a present nonempty string). -/
def extractImageUrls (response : ChatResponse) : List String :=
  match response.choices with
  | some (choice :: _) =>
    match choice.message.images with
    | some images =>
      if images.length > 0 then
        images.foldl
          (fun urls imgObj =>
            match imgObj.image_url with
            | some imageUrl =>
              match imageUrl.url with
              | some u => if u ≠ "" then urls ++ [u] else urls
              | none => urls
            | none => urls)
          []
      else []
    | none => []
  | _ => []

/-- The loop body of `saveImagesToConversation`: save each extracted
url via `saveImage` (per-call success oracle `oks`), collecting
`String(index)` for the successful saves and dropping the failures. -/
def saveImagesLoop :
    List String → List Bool → List DirEntry → List String × List DirEntry
  | [], _, imagesDir => ([], imagesDir)
  | _ :: urls, oks, imagesDir =>
    match saveImage imagesDir (oks.headD false) with
    | (some idx, dir') =>
      let r := saveImagesLoop urls oks.tail dir'
      (String.mk (natToDec idx.toNat) :: r.1, r.2)
    | (none, dir') => saveImagesLoop urls oks.tail dir'

/-- `saveImagesToConversation(timestamp, response)` acting on the
images directory of the conversation. -/
def saveImagesToConversation (response : ChatResponse)
    (oks : List Bool) (imagesDir : List DirEntry) :
    List String × List DirEntry :=
  saveImagesLoop (extractImageUrls response) oks imagesDir

/-- `imageConfig` built in `handleGenerate` from the dropdowns at
submission time. -/
structure ImageConfig where
  imageSize : String
  aspectRatio : String
  deriving Repr, DecidableEq

/-- `createConversationEntry(prompt, seed, response, imageFilenames,
imageConfig)`.  The caller guarantees `response.choices` is nonempty;
`message.content || null` collapses an empty string to null;
`imageConfig && imageConfig.imageSize` is JavaScript truthiness. -/
def createConversationEntry (prompt : String) (seed : Int)
    (response : ChatResponse) (imageFilenames : List String)
    (imageConfig : Option ImageConfig) : ConversationEntry :=
  let resolution :=
    match imageConfig with
    | some cfg => if cfg.imageSize ≠ "" then cfg.imageSize else "1K"
    | none => "1K"
  let resolutions := List.replicate imageFilenames.length resolution
  let contentText :=
    match response.choices with
    | some (choice :: _) =>
      match choice.message.content with
      | some s => if s ≠ "" then some s else none
      | none => none
    | _ => none
  { message := { systemPrompt := SYSTEM_PROMPT, text := prompt, seed := some seed }
    response :=
    { text := contentText
      imageFilenames := some imageFilenames
      imageResolutions := some resolutions
      responseData := some response
      generationData := none } }

/-! ## agent.js: the generation turn of `handleGenerate` -/

/-- The placeholder entry pushed before the remote call: sentinel
`imageFilenames: ["generating"]`, the submission-time resolution, null
text and data. -/
def placeholderEntry (prompt : String) (seed : Int)
    (resolution : String) : ConversationEntry :=
  { message := { systemPrompt := SYSTEM_PROMPT, text := prompt, seed := some seed }
    response :=
    { text := none
      imageFilenames := some ["generating"]
      imageResolutions := some [resolution]
      responseData := none
      generationData := none } }

/-- The rollback in the catch handler of `handleGenerate`: when the
conversation has entries and the last entry has `imageFilenames[0]`
equal to the `"generating"` sentinel, pop it. -/
def popFailedPlaceholder (c : Conversation) : Conversation :=
  if c.entries.length > 0 then
    match c.entries.getLast? with
    | some lastEntry =>
      match lastEntry.response.imageFilenames with
      | some fns =>
        if fns.head? = some "generating" then
          { c with entries := c.entries.dropLast }
        else c
      | none => c
    | none => c
  else c

/-- The inputs fixed at submission time in `handleGenerate`. -/
structure GenTurnInput where
  prompt : String
  seed : Int
  resolution : String
  aspectRatio : String
  nowMs : Nat
  deriving Repr, DecidableEq

/-- The state a generation turn reads and writes: the in-memory
`currentConversation`, the images directory of the conversation, and the
persisted `conversation.json` content. -/
structure GenTurnState where
  currentConversation : Option Conversation
  imagesDir : List DirEntry
  persistedConv : Option Conversation
  deriving Repr, DecidableEq

/-- What a finished turn leaves behind, plus the error message surfaced
by `displayError` in the catch handler (if any). -/
structure GenTurnResult where
  state : GenTurnState
  errorMessage : Option String
  deriving Repr, DecidableEq

/-- The promise chain of `handleGenerate` after its guards pass (flag
set, key/prompt/model present): create the conversation if absent, push
the placeholder, run the remote call (`apiOutcome` is the HTTP
boundary), then either persist the finalized entry in the placeholder
slot, or — in the catch handler — pop the placeholder and surface the
error.  `saveOks` is the per-image `saveImage` success oracle.  Summary
reconciliation and the generation-data enrichment are modelled
separately (`updateConversationSummary`). -/
def handleGenerateTurn (input : GenTurnInput) (st : GenTurnState)
    (apiOutcome : Except String ChatResponse) (saveOks : List Bool) :
    GenTurnResult :=
  let conv0 :=
    match st.currentConversation with
    | some c => c
    | none => { timestamp := input.nowMs / 1000, entries := [] }
  let conv1 := { conv0 with entries :=
    conv0.entries ++ [placeholderEntry input.prompt input.seed input.resolution] }
  match generateImageResult apiOutcome with
  | .error e =>
    { state :=
      { currentConversation := some (popFailedPlaceholder conv1)
        imagesDir := st.imagesDir
        persistedConv := st.persistedConv }
      errorMessage := some e }
  | .ok response =>
    match response.choices with
    | some (_ :: _) =>
      let saved := saveImagesToConversation response saveOks st.imagesDir
      let imageConfig : Option ImageConfig :=
        some { imageSize := input.resolution, aspectRatio := input.aspectRatio }
      let entry := createConversationEntry input.prompt input.seed
        response saved.1 imageConfig
      let placeholderIndex := conv1.entries.length - 1
      let conv2 := { conv1 with entries := conv1.entries.set placeholderIndex entry }
      { state :=
        { currentConversation := some conv2
          imagesDir := saved.2
          persistedConv := some conv2 }
        errorMessage := none }
    | _ =>
      { state :=
        { currentConversation := some conv1
          imagesDir := st.imagesDir
          persistedConv := st.persistedConv }
        errorMessage := none }

/-! ## Summary cache (`updateConversationSummary`, agent.js / part_005) -/

/-- JavaScript `a || b` for an optional string argument against a
string: an omitted or empty-string `a` yields `b`. -/
def jsOrStr (a : Option String) (b : String) : String :=
  match a with
  | some s => if s ≠ "" then s else b
  | none => b

/-- JavaScript `a || b` on numbers: `0` is falsy. -/
def jsOrNat (a b : Nat) : Nat :=
  if a ≠ 0 then a else b

/-- `updateConversationSummary(timestamp, title?)` at clock `nowSec`:
load the Conversation (null propagates), load or default the Summary,
recompute `imageCount` over entries with truthy `imageFilenames` and
`entryCount`, keep the prior title unless a truthy new one is given,
keep `created` (defaulting falsy to `timestamp`), stamp `updated`,
persist and return. -/
def updateConversationSummary (timestamp : Nat) (st : ConvStore)
    (title : Option String) (nowSec : Nat) :
    Option ConversationSummary × ConvStore :=
  match loadConversation st with
  | none => (none, st)
  | some conversation =>
    let summary := (loadSummary st).getD
      { title := "New Conversation", imageCount := 0, entryCount := 0
        created := timestamp, updated := timestamp }
    let imageCount := conversation.entries.foldl
      (fun acc entry =>
        match entry.response.imageFilenames with
        | some fns => acc + fns.length
        | none => acc)
      0
    let summaryData : ConversationSummary :=
      { title := jsOrStr title summary.title
        imageCount := imageCount
        entryCount := conversation.entries.length
        created := jsOrNat summary.created timestamp
        updated := nowSec }
    (some summaryData, saveSummary st summaryData)

/-- A Conversation is well-formed when the response of every entry carries
an `imageResolutions` array (the shape every finalized or placeholder
entry written by this code has). -/
def conversationWellFormed (c : Conversation) : Bool :=
  c.entries.all (fun e => e.response.imageResolutions.isSome)

/-! ## Supporting lemmas -/

theorem normalizeEntry_of_isSome (e : ConversationEntry)
    (h : e.response.imageResolutions.isSome) : normalizeEntry e = e := by
  unfold normalizeEntry
  cases hf : e.response.imageFilenames with
  | none => cases hr : e.response.imageResolutions <;> simp
  | some fns =>
    cases hr : e.response.imageResolutions with
    | none => rw [hr] at h; simp at h
    | some r => simp

theorem popFailedPlaceholder_concat (c : Conversation) (prompt : String)
    (seed : Int) (resolution : String) :
    popFailedPlaceholder
      { c with entries :=
        c.entries ++ [placeholderEntry prompt seed resolution] } = c := by
  unfold popFailedPlaceholder placeholderEntry
  simp

/-! ## Claim theorems -/

/-- C2: if the remote generation call rejects after the placeholder
entry was appended, the catch handler pops the placeholder back off, so
the conversation (hence `entries.length`) and the persisted record are
exactly as they were before the submission, and the error message is
surfaced. -/
theorem C2_failed_generation_rolls_back (input : GenTurnInput)
    (conv : Conversation) (imagesDir : List DirEntry)
    (persisted : Option Conversation) (e : String) (saveOks : List Bool) :
    handleGenerateTurn input ⟨some conv, imagesDir, persisted⟩
        (.error e) saveOks =
      ⟨⟨some conv, imagesDir, persisted⟩, some e⟩ := by
  unfold handleGenerateTurn generateImageResult
  simp [popFailedPlaceholder_concat]

/-- C4: saving a well-formed Conversation (every entry carries an
`imageResolutions` array) and loading it back returns a structurally
equal Conversation: the legacy normalization in `loadConversation` is
the identity on such records. -/
theorem C4_save_load_roundtrip (st : ConvStore) (c : Conversation)
    (h : conversationWellFormed c = true) :
    loadConversation (saveConversation st c) = some c := by
  unfold loadConversation saveConversation normalizeConversation
  simp only [Option.map_some]
  have hentries : c.entries.map normalizeEntry = c.entries := by
    have hfix : ∀ e ∈ c.entries, normalizeEntry e = id e := by
      intro e he
      apply normalizeEntry_of_isSome
      unfold conversationWellFormed at h
      rw [List.all_eq_true] at h
      simpa using h e he
    rw [List.map_congr_left hfix, List.map_id]
  simp [hentries]

/-- C4 witness. -/
theorem C4_save_load_roundtrip_witness :
    loadConversation
      (saveConversation ⟨none, none⟩
        ⟨1000, [⟨⟨"sp", "a cat", some 42⟩,
                 ⟨some "t", some ["1"], some ["2K"], none, none⟩⟩]⟩) =
      some ⟨1000, [⟨⟨"sp", "a cat", some 42⟩,
                    ⟨some "t", some ["1"], some ["2K"], none, none⟩⟩]⟩ :=
  C4_save_load_roundtrip ⟨none, none⟩ _ (by decide)

/-- C8: `getPreference` never throws; an unreadable or absent file, or
empty or whitespace-only content, yields the supplied default (`none`
models null when no default is given); otherwise the stored text is
returned trimmed. -/
theorem C8_getPreference_total (stored : Option (List Char))
    (readFails : Bool) (defaultValue : Option (List Char)) :
    (readFails = true →
      getPreference stored readFails defaultValue = defaultValue) ∧
    (stored = none →
      getPreference stored readFails defaultValue = defaultValue) ∧
    (∀ content, stored = some content → jsTrim content = [] →
      getPreference stored readFails defaultValue = defaultValue) ∧
    (∀ content, stored = some content → readFails = false →
      jsTrim content ≠ [] →
      getPreference stored readFails defaultValue = some (jsTrim content)) := by
  refine ⟨?_, ?_, ?_, ?_⟩
  · intro h; subst h; simp [getPreference]
  · intro h; subst h; unfold getPreference; cases readFails <;> simp
  · intro content h htrim
    subst h
    unfold getPreference
    cases readFails with
    | true => simp
    | false => simp [htrim]
  · intro content h hrf htrim
    subst h; subst hrf
    unfold getPreference
    have hcontent : content ≠ [] := by
      intro hc
      apply htrim
      subst hc
      rfl
    simp [hcontent, List.length_pos, htrim]

/-- C8 witness: before any `savePreference` the file is absent and the
supplied default comes back; whitespace-only content also yields the
default; real content comes back trimmed. -/
theorem C8_getPreference_total_witness :
    getPreference none false (some ['d']) = some ['d'] ∧
    getPreference (some [' ', ' ']) false none = none ∧
    getPreference (some [' ', 'k', ' ']) false none = some ['k'] := by
  refine ⟨?_, ?_, ?_⟩
  · exact (C8_getPreference_total none false (some ['d'])).2.1 rfl
  · exact (C8_getPreference_total (some [' ', ' ']) false none).2.2.1
      [' ', ' '] rfl (by decide)
  · have h := (C8_getPreference_total (some [' ', 'k', ' ']) false none).2.2.2
      [' ', 'k', ' '] rfl rfl (by decide)
    rw [show jsTrim [' ', 'k', ' '] = ['k'] from by decide] at h
    exact h

/-- C9: `loadConversation` returns the stored record with every entry
normalized; an entry that has `imageFilenames` but lacks
`imageResolutions` comes back with `imageResolutions` a list of the
same length whose every element is "1K". -/
theorem C9_legacy_normalization (st : ConvStore) (orig : Conversation)
    (hst : st.conv = some orig) :
    loadConversation st = some (normalizeConversation orig) ∧
    (normalizeConversation orig).entries = orig.entries.map normalizeEntry ∧
    (∀ e fns, e.response.imageFilenames = some fns →
      e.response.imageResolutions = none →
      (normalizeEntry e).response.imageFilenames = some fns ∧
      (normalizeEntry e).response.imageResolutions =
        some (List.replicate fns.length "1K")) := by
  refine ⟨?_, rfl, ?_⟩
  · unfold loadConversation
    rw [hst]
    rfl
  · intro e fns hf hr
    unfold normalizeEntry
    rw [hf, hr]
    exact ⟨hf, by simp [List.map_const']⟩

/-- C9 witness. -/
theorem C9_legacy_normalization_witness :
    loadConversation ⟨some ⟨1000, [⟨⟨"sp", "p", some 1⟩,
        ⟨some "t", some ["1", "2"], none, none, none⟩⟩]⟩, none⟩ =
      some (normalizeConversation ⟨1000, [⟨⟨"sp", "p", some 1⟩,
        ⟨some "t", some ["1", "2"], none, none, none⟩⟩]⟩) ∧
    (normalizeEntry ⟨⟨"sp", "p", some 1⟩,
        ⟨some "t", some ["1", "2"], none, none, none⟩⟩).response.imageResolutions =
      some (List.replicate 2 "1K") := by
  have h := C9_legacy_normalization
    ⟨some ⟨1000, [⟨⟨"sp", "p", some 1⟩,
        ⟨some "t", some ["1", "2"], none, none, none⟩⟩]⟩, none⟩
    ⟨1000, [⟨⟨"sp", "p", some 1⟩,
        ⟨some "t", some ["1", "2"], none, none, none⟩⟩]⟩ rfl
  exact ⟨h.1, (h.2.2 _ ["1", "2"] rfl rfl).2⟩

/-- C10: `createConversation` accepts no parameter, so its result and
storage effects are independent of whatever a caller passes; it mints
`floor(now / 1000)` and returns that timestamp even when creating the
directory fails; and the directory it ensures is named by its own
minted timestamp, which can differ from the timestamp the orchestrator
passes at the `createConversation(currentConversation.timestamp)` call
site. -/
theorem C10_createConversation_ignores_argument :
    (∀ a b nowMs ioFails,
      createConversationCalledWith a nowMs ioFails =
        createConversationCalledWith b nowMs ioFails) ∧
    (∀ a nowMs ioFails,
      (createConversationCalledWith a nowMs ioFails).timestamp =
        nowMs / 1000) ∧
    (∀ a nowMs,
      (createConversationCalledWith a nowMs true).createdDir = none) ∧
    (∃ arg nowMs,
      (createConversationCalledWith arg nowMs false).createdDir =
        some (natToDec (nowMs / 1000)) ∧
      nowMs / 1000 ≠ arg) := by
  refine ⟨fun a b nowMs ioFails => rfl, fun a nowMs ioFails => ?_,
    fun a nowMs => rfl, 5, 1000000000, rfl, by norm_num⟩
  unfold createConversationCalledWith createConversation
  cases ioFails <;> rfl

theorem normalizeEntry_imageFilenames (e : ConversationEntry) :
    (normalizeEntry e).response.imageFilenames =
      e.response.imageFilenames := by
  unfold normalizeEntry
  cases hf : e.response.imageFilenames <;>
    cases hr : e.response.imageResolutions <;> simp [hf]

theorem imageCount_foldl_eq_sum (l : List ConversationEntry) (a : Nat) :
    l.foldl
      (fun acc entry =>
        match entry.response.imageFilenames with
        | some fns => acc + fns.length
        | none => acc)
      a =
    a + (l.map (fun e => (e.response.imageFilenames.getD []).length)).sum := by
  induction l generalizing a with
  | nil => simp
  | cons e rest ih =>
    cases hf : e.response.imageFilenames with
    | none => simp [List.foldl_cons, hf, ih]
    | some fns => simp [List.foldl_cons, hf, ih, Nat.add_assoc]

theorem jsOrNat_idem (a b : Nat) : jsOrNat (jsOrNat a b) b = jsOrNat a b := by
  unfold jsOrNat
  by_cases h : a = 0 <;> simp [h]

/-- C3: calling the summary recompute twice in a row with no
intervening change to the stored Conversation yields two summaries
whose `title`, `imageCount`, `entryCount` and `created` coincide,
differing only in `updated`; `imageCount` is the sum of
`imageFilenames.length` over all entries and `entryCount` the number of
entries. -/
theorem C3_recompute_idempotent (timestamp : Nat) (c : Conversation)
    (summ : Option ConversationSummary) (now1 now2 : Nat) :
    ∃ s1 s2,
      updateConversationSummary timestamp ⟨some c, summ⟩ none now1 =
        (some s1, ⟨some c, some s1⟩) ∧
      updateConversationSummary timestamp ⟨some c, some s1⟩ none now2 =
        (some s2, ⟨some c, some s2⟩) ∧
      s2.title = s1.title ∧ s2.imageCount = s1.imageCount ∧
      s2.entryCount = s1.entryCount ∧ s2.created = s1.created ∧
      s1.updated = now1 ∧ s2.updated = now2 ∧
      s1.imageCount =
        (c.entries.map
          (fun e => (e.response.imageFilenames.getD []).length)).sum ∧
      s1.entryCount = c.entries.length := by
  unfold updateConversationSummary
  simp only [loadConversation, Option.map_some, loadSummary, saveSummary,
    Option.getD_some]
  refine ⟨_, _, rfl, rfl, rfl, rfl, rfl, jsOrNat_idem _ _, rfl, rfl, ?_, ?_⟩
  · show (normalizeConversation c).entries.foldl _ 0 = _
    rw [imageCount_foldl_eq_sum, Nat.zero_add]
    unfold normalizeConversation
    simp only [List.map_map]
    congr 1
    apply List.map_congr_left
    intro e _
    simp [Function.comp, normalizeEntry_imageFilenames]
  · show (normalizeConversation c).entries.length = _
    simp [normalizeConversation]

theorem handleGenerateTurn_rollback (input : GenTurnInput)
    (conv : Conversation) (imagesDir : List DirEntry)
    (persisted : Option Conversation)
    (apiOutcome : Except String ChatResponse) (saveOks : List Bool)
    (e : String) (h : generateImageResult apiOutcome = .error e) :
    handleGenerateTurn input ⟨some conv, imagesDir, persisted⟩
        apiOutcome saveOks =
      ⟨⟨some conv, imagesDir, persisted⟩, some e⟩ := by
  unfold handleGenerateTurn
  rw [h]
  simp [popFailedPlaceholder_concat]

/-- C6 counterexample: a completed call whose response carries a
nonempty `images` array with no `image_url.url` in it extracts zero
image URLs, yet is NOT treated as a failure: no error is surfaced and a
finalized entry with zero filenames is persisted for the turn. -/
theorem C6_counterexample :
    extractImageUrls ⟨"id2", some [⟨⟨some "hi", some [⟨none⟩]⟩⟩]⟩ = [] ∧
    handleGenerateTurn ⟨"a cat", 42, "2K", "1:1", 1737000000000⟩
        ⟨some ⟨1000, []⟩, [], none⟩
        (.ok ⟨"id2", some [⟨⟨some "hi", some [⟨none⟩]⟩⟩]⟩) [] =
      ⟨⟨some ⟨1000, [⟨⟨SYSTEM_PROMPT, "a cat", some 42⟩,
          ⟨some "hi", some [], some [],
            some ⟨"id2", some [⟨⟨some "hi", some [⟨none⟩]⟩⟩]⟩, none⟩⟩]⟩,
        [],
        some ⟨1000, [⟨⟨SYSTEM_PROMPT, "a cat", some 42⟩,
          ⟨some "hi", some [], some [],
            some ⟨"id2", some [⟨⟨some "hi", some [⟨none⟩]⟩⟩]⟩, none⟩⟩]⟩⟩,
       none⟩ :=
  ⟨rfl, rfl⟩

/-- C6 amended: a completed call whose response has no choices, or
whose first message has a missing or empty `images` array, is treated as
a failure through the same path as a network error: an error is raised,
the placeholder is removed, and nothing is persisted for the turn.  (A
response with a nonempty `images` array from which zero URLs are
extracted is NOT treated as a failure; it persists an entry with zero
filenames.) -/
theorem C6_empty_images_treated_as_failure (input : GenTurnInput)
    (conv : Conversation) (imagesDir : List DirEntry)
    (persisted : Option Conversation) (saveOks : List Bool)
    (data : ChatResponse)
    (h : data.choices = none ∨ data.choices = some [] ∨
      ∃ choice rest, data.choices = some (choice :: rest) ∧
        (choice.message.images = none ∨ choice.message.images = some [])) :
    ∃ e, handleGenerateTurn input ⟨some conv, imagesDir, persisted⟩
        (.ok data) saveOks =
      ⟨⟨some conv, imagesDir, persisted⟩, some e⟩ := by
  have hval : ∃ e, generateImageResult (.ok data) = .error e := by
    rcases h with h | h | ⟨choice, rest, h, himg | himg⟩
    · exact ⟨"No choices returned from OpenRouter",
        by simp [generateImageResult, h]⟩
    · exact ⟨"No choices returned from OpenRouter",
        by simp [generateImageResult, h]⟩
    · exact ⟨"No images returned by model",
        by simp [generateImageResult, h, himg]⟩
    · exact ⟨"No images returned by model",
        by simp [generateImageResult, h, himg]⟩
  obtain ⟨e, he⟩ := hval
  exact ⟨e, handleGenerateTurn_rollback input conv imagesDir persisted
    (.ok data) saveOks e he⟩

/-- C6 witness for the amended theorem: a response with one choice and
an empty `images` array rolls the turn back. -/
theorem C6_empty_images_treated_as_failure_witness :
    ∃ e, handleGenerateTurn ⟨"a cat", 42, "2K", "1:1", 1737000000000⟩
        ⟨some ⟨1000, []⟩, [], none⟩
        (.ok ⟨"id9", some [⟨⟨some "hi", some []⟩⟩]⟩) [] =
      ⟨⟨some ⟨1000, []⟩, [], none⟩, some e⟩ :=
  C6_empty_images_treated_as_failure _ ⟨1000, []⟩ [] none []
    ⟨"id9", some [⟨⟨some "hi", some []⟩⟩]⟩
    (Or.inr (Or.inr ⟨⟨⟨some "hi", some []⟩⟩, [], rfl, Or.inr rfl⟩))

/-- C7 counterexample: the directory name "99abc" is not numeric, yet
`listConversations` does not exclude it — `parseInt("99abc", 10)` is 99
and it is returned; moreover two names parsing to the same number give
a result that is not strictly descending. -/
theorem C7_counterexample :
    listConversations [⟨['9', '9', 'a', 'b', 'c'], false⟩] false = [99] ∧
    (['9', '9', 'a', 'b', 'c'].all Char.isDigit) = false ∧
    listConversations
      [⟨['4', '2'], false⟩, ⟨['4', '2', 'a', 'b', 'c'], false⟩] false =
      [42, 42] ∧
    ¬ List.Pairwise (fun a b : Int => b < a) [(42 : Int), 42] := by
  refine ⟨rfl, rfl, rfl, ?_⟩
  intro h
  have := List.rel_of_pairwise_cons h (List.mem_singleton.mpr rfl)
  omega

theorem listConversations_foldl_eq_filterMap (l : List DirEntry)
    (acc : List Int) :
    l.foldl
      (fun ts entry =>
        if entry.isFile then ts
        else
          match jsParseInt entry.name with
          | some num => ts ++ [num]
          | none => ts)
      acc =
    acc ++ l.filterMap
      (fun e => if e.isFile then none else jsParseInt e.name) := by
  induction l generalizing acc with
  | nil => simp
  | cons e rest ih =>
    cases he : e.isFile with
    | true => simp [he, ih]
    | false =>
      cases hp : jsParseInt e.name with
      | none => simp [he, hp, ih]
      | some num => simp [he, hp, ih]

/-- C7 amended: `listConversations` returns, for each child directory
whose name has a leading integer under `parseInt(·, 10)` semantics, the
parsed number; names with no leading integer (and file children) are
excluded; the result is sorted descending, though not strictly when two
distinct names parse to the same number; on a storage error it returns
the empty list. -/
theorem C7_list_sorted_descending (convsDir : List DirEntry)
    (ioError : Bool) :
    (ioError = true → listConversations convsDir ioError = []) ∧
    (ioError = false →
      List.Sorted (fun a b : Int => b ≤ a)
        (listConversations convsDir ioError) ∧
      (listConversations convsDir ioError).Perm
        (convsDir.filterMap
          (fun e => if e.isFile then none else jsParseInt e.name))) := by
  constructor
  · intro h; subst h; rfl
  · intro h; subst h
    unfold listConversations
    simp only [Bool.false_eq_true, if_false]
    rw [listConversations_foldl_eq_filterMap, List.nil_append]
    exact ⟨List.sorted_insertionSort _ _, List.perm_insertionSort _ _⟩

/-- C7 amended witness. -/
theorem C7_list_sorted_descending_witness :
    listConversations [⟨['7'], false⟩] true = [] ∧
    List.Sorted (fun a b : Int => b ≤ a)
      (listConversations
        [⟨['7'], false⟩, ⟨['1', '0', '0'], false⟩,
         ⟨['x'], false⟩, ⟨['5', '0'], true⟩] false) ∧
    (listConversations
      [⟨['7'], false⟩, ⟨['1', '0', '0'], false⟩,
       ⟨['x'], false⟩, ⟨['5', '0'], true⟩] false).Perm
      ([⟨['7'], false⟩, ⟨['1', '0', '0'], false⟩,
        ⟨['x'], false⟩, ⟨['5', '0'], true⟩].filterMap
        (fun e : DirEntry =>
          if e.isFile then none else jsParseInt e.name)) :=
  ⟨(C7_list_sorted_descending [⟨['7'], false⟩] true).1 rfl,
   ((C7_list_sorted_descending _ false).2 rfl).1,
   ((C7_list_sorted_descending _ false).2 rfl).2⟩

theorem list_set_concat {α : Type} (l : List α) (p e : α) :
    (l ++ [p]).set l.length e = l ++ [e] := by
  induction l with
  | nil => rfl
  | cons x xs ih => simp [List.set_cons_succ, ih]

theorem saveImagesLoop_length (urls : List String) (oks : List Bool)
    (imagesDir : List DirEntry) (hlen : oks.length = urls.length) :
    (saveImagesLoop urls oks imagesDir).1.length =
      urls.length - oks.count false := by
  induction urls generalizing oks imagesDir with
  | nil =>
    cases oks with
    | nil => simp [saveImagesLoop]
    | cons o os => simp at hlen
  | cons u us ih =>
    cases oks with
    | nil => simp at hlen
    | cons ok os =>
      have hlen' : os.length = us.length := by simpa using hlen
      have hcnt : os.count false ≤ os.length := List.count_le_length _ _
      have h1 : (saveImagesLoop (u :: us) (true :: os) imagesDir).1.length =
          (saveImagesLoop us os (saveImage imagesDir true).2).1.length + 1 := by
        simp [saveImagesLoop, saveImage]
      have h2 : (saveImagesLoop (u :: us) (false :: os) imagesDir).1.length =
          (saveImagesLoop us os imagesDir).1.length := by
        simp [saveImagesLoop, saveImage]
      cases ok with
      | true =>
        rw [h1, ih os _ hlen']
        simp only [List.length_cons, List.count_cons]
        simp
        try omega
      | false =>
        rw [h2, ih os _ hlen']
        simp only [List.length_cons, List.count_cons]
        simp
        try omega

/-- C5: on a successful generation (validation passed), with
`extractImageUrls` yielding N payloads of which M fail to decode or
save (M < N), the finalized entry replacing the placeholder carries
exactly N - M filenames and a parallel `imageResolutions` array of the
same length whose every element is the resolution selected at
submission time; failing payloads are dropped without aborting the
turn. -/
theorem C5_failed_payloads_dropped (input : GenTurnInput)
    (conv : Conversation) (imagesDir : List DirEntry)
    (persisted : Option Conversation) (data : ChatResponse)
    (saveOks : List Bool)
    (hvalid : generateImageResult (.ok data) = .ok data)
    (hlen : saveOks.length = (extractImageUrls data).length)
    (_hM : saveOks.count false < saveOks.length)
    (hres : input.resolution ≠ "") :
    handleGenerateTurn input ⟨some conv, imagesDir, persisted⟩
        (.ok data) saveOks =
      ⟨⟨some { conv with entries := conv.entries ++
          [createConversationEntry input.prompt input.seed data
            (saveImagesToConversation data saveOks imagesDir).1
            (some ⟨input.resolution, input.aspectRatio⟩)] },
        (saveImagesToConversation data saveOks imagesDir).2,
        some { conv with entries := conv.entries ++
          [createConversationEntry input.prompt input.seed data
            (saveImagesToConversation data saveOks imagesDir).1
            (some ⟨input.resolution, input.aspectRatio⟩)] }⟩,
       none⟩ ∧
    (saveImagesToConversation data saveOks imagesDir).1.length =
      (extractImageUrls data).length - saveOks.count false ∧
    (createConversationEntry input.prompt input.seed data
        (saveImagesToConversation data saveOks imagesDir).1
        (some ⟨input.resolution, input.aspectRatio⟩)).response.imageFilenames =
      some (saveImagesToConversation data saveOks imagesDir).1 ∧
    (createConversationEntry input.prompt input.seed data
        (saveImagesToConversation data saveOks imagesDir).1
        (some ⟨input.resolution, input.aspectRatio⟩)).response.imageResolutions =
      some (List.replicate
        ((extractImageUrls data).length - saveOks.count false)
        input.resolution) := by
  obtain ⟨choice, cs, hchoices⟩ :
      ∃ choice cs, data.choices = some (choice :: cs) := by
    cases hc : data.choices with
    | none => exfalso; simp [generateImageResult, hc] at hvalid
    | some l =>
      cases l with
      | nil => exfalso; simp [generateImageResult, hc] at hvalid
      | cons a b => exact ⟨a, b, rfl⟩
  have hflen : (saveImagesToConversation data saveOks imagesDir).1.length =
      (extractImageUrls data).length - saveOks.count false := by
    unfold saveImagesToConversation
    rw [saveImagesLoop_length _ _ _ hlen]
  refine ⟨?_, hflen, ?_, ?_⟩
  · simp only [handleGenerateTurn, hvalid, hchoices]
    simp only [List.length_append, List.length_cons, List.length_nil,
      Nat.add_sub_cancel, Nat.zero_add]
    rw [list_set_concat]
  · rfl
  · unfold createConversationEntry
    simp [hres, hflen]

/-- A concrete response with two image payloads, for exercising the
partial-failure theorem. -/
def exampleResponseTwoPayloads : ChatResponse :=
  ⟨"id3", some [⟨⟨some "hi",
    some [⟨some ⟨some "u1"⟩⟩, ⟨some ⟨some "u2"⟩⟩]⟩⟩]⟩

/-- C5 witness: two payloads, the second save fails, one filename and
one "2K" resolution persist. -/
theorem C5_failed_payloads_dropped_witness :
    (saveImagesToConversation exampleResponseTwoPayloads
      [true, false] []).1.length = 1 ∧
    (createConversationEntry "a cat" 42 exampleResponseTwoPayloads
        (saveImagesToConversation exampleResponseTwoPayloads
          [true, false] []).1
        (some ⟨"2K", "1:1"⟩)).response.imageResolutions =
      some (List.replicate 1 "2K") := by
  have h := C5_failed_payloads_dropped
    ⟨"a cat", 42, "2K", "1:1", 1737000000000⟩ ⟨1000, []⟩ [] none
    exampleResponseTwoPayloads [true, false]
    rfl (by decide) (by decide) (by decide)
  have harith : (extractImageUrls exampleResponseTwoPayloads).length -
      List.count false [true, false] = 1 := by decide
  refine ⟨?_, ?_⟩
  · have h2 := h.2.1
    rw [harith] at h2
    exact h2
  · have h4 := h.2.2.2
    rw [harith] at h4
    exact h4

/-! ## Decimal round-trip: `parseInt(String(n), 10) = n` -/

theorem char_ofNat_digit (m : Nat) (h : m < 10) :
    (Char.ofNat (48 + m)).toNat = 48 + m ∧
    (Char.ofNat (48 + m)).isDigit = true := by
  interval_cases m <;> exact ⟨by decide, by decide⟩

theorem natToDecAux_append (n : Nat) :
    ∀ acc, natToDecAux n acc = natToDecAux n [] ++ acc := by
  induction n using Nat.strong_induction_on with
  | _ n ih =>
    intro acc
    by_cases h : n = 0
    · subst h; simp [natToDecAux]
    · have hlt : n / 10 < n := Nat.div_lt_self (Nat.pos_of_ne_zero h) (by norm_num)
      have step : ∀ acc' : List Char, natToDecAux n acc' =
          natToDecAux (n / 10) (Char.ofNat (48 + n % 10) :: acc') := by
        intro acc'
        rw [natToDecAux]
        exact dif_neg h
      rw [step acc, step []]
      rw [ih (n / 10) hlt (Char.ofNat (48 + n % 10) :: acc),
          ih (n / 10) hlt [Char.ofNat (48 + n % 10)]]
      simp

theorem natToDecAux_all_digits (n : Nat) :
    ∀ c ∈ natToDecAux n [], c.isDigit = true := by
  induction n using Nat.strong_induction_on with
  | _ n ih =>
    intro c hc
    by_cases h : n = 0
    · subst h
      rw [natToDecAux] at hc
      simp at hc
    · have hlt : n / 10 < n := Nat.div_lt_self (Nat.pos_of_ne_zero h) (by norm_num)
      rw [natToDecAux, dif_neg h,
        natToDecAux_append (n / 10) [Char.ofNat (48 + n % 10)]] at hc
      rcases List.mem_append.mp hc with hc | hc
      · exact ih (n / 10) hlt c hc
      · rw [List.mem_singleton.mp hc]
        exact (char_ofNat_digit (n % 10) (Nat.mod_lt n (by norm_num))).2

theorem digitsVal_natToDecAux (n : Nat) :
    ∀ a, digitsVal a (natToDecAux n []) =
      a * 10 ^ (natToDecAux n []).length + n := by
  induction n using Nat.strong_induction_on with
  | _ n ih =>
    intro a
    by_cases h : n = 0
    · subst h; rw [natToDecAux]; simp [digitsVal]
    · have hlt : n / 10 < n := Nat.div_lt_self (Nat.pos_of_ne_zero h) (by norm_num)
      have hm : n % 10 < 10 := Nat.mod_lt n (by norm_num)
      have hsplit : natToDecAux n [] =
          natToDecAux (n / 10) [] ++ [Char.ofNat (48 + n % 10)] := by
        rw [natToDecAux, dif_neg h,
          natToDecAux_append (n / 10) [Char.ofNat (48 + n % 10)]]
      rw [hsplit]
      unfold digitsVal
      rw [List.foldl_append]
      have hchar : (Char.ofNat (48 + n % 10)).toNat - 48 = n % 10 := by
        rw [(char_ofNat_digit (n % 10) hm).1]
        omega
      simp only [List.foldl_cons, List.foldl_nil, List.length_append,
        List.length_cons, List.length_nil, hchar]
      have hval := ih (n / 10) hlt a
      unfold digitsVal at hval
      rw [hval]
      calc (a * 10 ^ (natToDecAux (n / 10) []).length + n / 10) * 10 + n % 10
          = a * 10 ^ ((natToDecAux (n / 10) []).length + (0 + 1)) +
              (10 * (n / 10) + n % 10) := by ring
        _ = a * 10 ^ ((natToDecAux (n / 10) []).length + (0 + 1)) + n := by
              rw [Nat.div_add_mod]

theorem natToDec_all_digits (n : Nat) :
    ∀ c ∈ natToDec n, c.isDigit = true := by
  unfold natToDec
  by_cases h : n = 0
  · simp [h]
  · simp only [h, if_false]
    exact natToDecAux_all_digits n

theorem natToDec_ne_nil (n : Nat) : natToDec n ≠ [] := by
  unfold natToDec
  by_cases h : n = 0
  · simp [h]
  · simp only [h, if_false]
    intro hnil
    have : digitsVal 0 (natToDecAux n []) = 0 * 10 ^ (natToDecAux n []).length + n :=
      digitsVal_natToDecAux n 0
    rw [hnil] at this
    simp [digitsVal] at this
    exact h this.symm

theorem parseDigits_natToDec (n : Nat) : parseDigits (natToDec n) = some n := by
  unfold parseDigits
  have hall : (natToDec n).takeWhile Char.isDigit = natToDec n :=
    List.takeWhile_eq_self_iff.mpr (natToDec_all_digits n)
  rw [hall]
  have hne := natToDec_ne_nil n
  have hempty : (natToDec n).isEmpty = false := by
    cases hd : natToDec n with
    | nil => exact absurd hd hne
    | cons a l => rfl
  simp only [hempty, Bool.false_eq_true, if_false, Option.some_inj]
  unfold natToDec
  by_cases h : n = 0
  · simp [h, digitsVal]
  · simp only [h, if_false]
    rw [digitsVal_natToDecAux n 0]
    simp

theorem digit_not_sign (c : Char) (h : c.isDigit = true) :
    c ≠ '.' ∧ c ≠ '-' ∧ c ≠ '+' ∧ jsWhitespace c = false := by
  refine ⟨?_, ?_, ?_, ?_⟩
  · intro he; rw [he] at h; exact absurd h (by decide)
  · intro he; rw [he] at h; exact absurd h (by decide)
  · intro he; rw [he] at h; exact absurd h (by decide)
  · have hs : c ≠ ' ' := by intro he; rw [he] at h; exact absurd h (by decide)
    have ht : c ≠ '\t' := by intro he; rw [he] at h; exact absurd h (by decide)
    have hn : c ≠ '\n' := by intro he; rw [he] at h; exact absurd h (by decide)
    have hr : c ≠ '\r' := by intro he; rw [he] at h; exact absurd h (by decide)
    have hv : c ≠ '\x0b' := by intro he; rw [he] at h; exact absurd h (by decide)
    have hf : c ≠ '\x0c' := by intro he; rw [he] at h; exact absurd h (by decide)
    unfold jsWhitespace
    simp [hs, ht, hn, hr, hv, hf]

theorem jsParseInt_natToDec (n : Nat) :
    jsParseInt (natToDec n) = some (n : Int) := by
  obtain ⟨d, t, hd⟩ : ∃ d t, natToDec n = d :: t := by
    cases hc : natToDec n with
    | nil => exact absurd hc (natToDec_ne_nil n)
    | cons a l => exact ⟨a, l, rfl⟩
  have hdig : d.isDigit = true := by
    apply natToDec_all_digits n
    rw [hd]
    exact List.mem_cons_self d t
  obtain ⟨_, hminus, hplus, hws⟩ := digit_not_sign d hdig
  unfold jsParseInt
  rw [hd, List.dropWhile_cons, hws]
  simp only [Bool.false_eq_true, if_false, hminus, hplus, if_false]
  rw [← hd, parseDigits_natToDec]
  rfl

/-! ## `saveImage` index facts -/

theorem matchesAt_append_self (l : List Char) :
    ∀ r, matchesAt l (l ++ r) = true := by
  induction l with
  | nil => intro r; rfl
  | cons c cs ih => intro r; simp [matchesAt, ih]

theorem listEndsWith_append (xs pat : List Char) :
    listEndsWith (xs ++ pat) pat = true := by
  unfold listEndsWith
  rw [List.reverse_append]
  exact matchesAt_append_self pat.reverse xs.reverse

theorem listReplaceFirst_digits_png (xs : List Char)
    (h : ∀ c ∈ xs, c.isDigit = true) :
    listReplaceFirst (xs ++ pngChars) pngChars = xs := by
  induction xs with
  | nil => decide
  | cons x rest ih =>
    have hx : x.isDigit = true := h x (List.mem_cons_self x rest)
    have hxdot : ('.' = x) = False := by
      simp only [eq_iff_iff, iff_false]
      intro he
      exact (digit_not_sign x hx).1 he.symm
    show listReplaceFirst (x :: (rest ++ pngChars)) pngChars = x :: rest
    unfold listReplaceFirst
    have hmatch : matchesAt pngChars (x :: (rest ++ pngChars)) = false := by
      show (decide ('.' = x) && matchesAt ['p', 'n', 'g'] (rest ++ pngChars)) = false
      simp [hxdot]
    rw [hmatch]
    simp only [Bool.false_eq_true, if_false]
    rw [ih (fun c hc => h c (List.mem_cons_of_mem x hc))]

theorem maxPngStep_newfile (m : Int) (n : Nat) :
    maxPngStep m ⟨natToDec n ++ pngChars, true⟩ =
      if m < (n : Int) then (n : Int) else m := by
  unfold maxPngStep
  simp only [Bool.true_and]
  rw [listEndsWith_append, if_pos rfl,
    listReplaceFirst_digits_png (natToDec n) (natToDec_all_digits n),
    jsParseInt_natToDec]

theorem maxPngStep_ge (m : Int) (e : DirEntry) : m ≤ maxPngStep m e := by
  unfold maxPngStep
  by_cases hg : (e.isFile && listEndsWith e.name pngChars) = true
  · rw [if_pos hg]
    cases hp : jsParseInt (listReplaceFirst e.name pngChars) with
    | none => exact le_refl m
    | some num =>
      dsimp only
      split <;> omega
  · rw [if_neg hg]

theorem maxPng_foldl_ge (l : List DirEntry) :
    ∀ m : Int, m ≤ l.foldl maxPngStep m := by
  induction l with
  | nil => intro m; exact le_refl m
  | cons e rest ih =>
    intro m
    rw [List.foldl_cons]
    exact le_trans (maxPngStep_ge m e) (ih (maxPngStep m e))

theorem maxPngIndex_nonneg (imagesDir : List DirEntry) :
    0 ≤ maxPngIndex imagesDir :=
  maxPng_foldl_ge imagesDir 0

theorem maxPng_foldl_mem (l : List DirEntry) :
    ∀ (m : Int) (e : DirEntry), e ∈ l → ∀ num : Int, e.isFile = true →
      listEndsWith e.name pngChars = true →
      jsParseInt (listReplaceFirst e.name pngChars) = some num →
      num ≤ l.foldl maxPngStep m := by
  induction l with
  | nil =>
    intro m e he
    exact absurd he (List.not_mem_nil e)
  | cons hd tl ih =>
    intro m e he num h1 h2 h3
    rw [List.foldl_cons]
    rcases List.mem_cons.mp he with he | he
    · subst he
      refine le_trans ?_ (maxPng_foldl_ge tl (maxPngStep m e))
      unfold maxPngStep
      rw [h1, h2]
      simp only [Bool.and_self, if_true, h3]
      split <;> omega
    · exact ih (maxPngStep m hd) e he num h1 h2 h3

theorem saveImage_true_eq (imagesDir : List DirEntry) :
    saveImage imagesDir true =
      (some (maxPngIndex imagesDir + 1),
       imagesDir ++ [⟨natToDec (maxPngIndex imagesDir + 1).toNat ++ pngChars,
         true⟩]) := rfl

theorem maxPngIndex_after_save (imagesDir : List DirEntry) :
    maxPngIndex (saveImage imagesDir true).2 = maxPngIndex imagesDir + 1 := by
  rw [saveImage_true_eq]
  show List.foldl maxPngStep 0 (imagesDir ++ [_]) = _
  rw [List.foldl_append]
  show maxPngStep (maxPngIndex imagesDir) _ = _
  have hnn : 0 ≤ maxPngIndex imagesDir + 1 := by
    have := maxPngIndex_nonneg imagesDir
    omega
  have hcast : ((maxPngIndex imagesDir + 1).toNat : Int) =
      maxPngIndex imagesDir + 1 := Int.toNat_of_nonneg hnn
  rw [maxPngStep_newfile, hcast, if_pos (by omega)]

theorem runSaves_gt (oks : List Bool) :
    ∀ (imagesDir : List DirEntry) (x : Int),
      x ∈ (runSaves oks imagesDir).1 → maxPngIndex imagesDir < x := by
  induction oks with
  | nil =>
    intro imagesDir x hx
    simp [runSaves] at hx
  | cons ok os ih =>
    intro imagesDir x hx
    cases ok with
    | false => exact ih imagesDir x hx
    | true =>
      have hred : (runSaves (true :: os) imagesDir).1 =
          getNextImageIndex imagesDir ::
            (runSaves os (saveImage imagesDir true).2).1 := rfl
      rw [hred] at hx
      rcases List.mem_cons.mp hx with hx | hx
      · subst hx
        show maxPngIndex imagesDir < maxPngIndex imagesDir + 1
        omega
      · have := ih (saveImage imagesDir true).2 x hx
        rw [maxPngIndex_after_save] at this
        omega

/-- Successful `saveImage` indices over any sequence of calls are
strictly increasing. -/
theorem runSaves_pairwise (oks : List Bool) :
    ∀ imagesDir : List DirEntry,
      List.Pairwise (fun a b : Int => a < b) (runSaves oks imagesDir).1 := by
  induction oks with
  | nil => intro imagesDir; simp [runSaves]
  | cons ok os ih =>
    intro imagesDir
    cases ok with
    | false => exact ih imagesDir
    | true =>
      have hred : (runSaves (true :: os) imagesDir).1 =
          getNextImageIndex imagesDir ::
            (runSaves os (saveImage imagesDir true).2).1 := rfl
      rw [hred]
      rw [List.pairwise_cons]
      constructor
      · intro x hx
        have := runSaves_gt os (saveImage imagesDir true).2 x hx
        rw [maxPngIndex_after_save] at this
        show maxPngIndex imagesDir + 1 < x
        omega
      · exact ih (saveImage imagesDir true).2

/-- C1 counterexample: a successful save returns index 1; after the
image is deleted (`deleteImagesForConversation` empties the images
directory), the next successful save returns index 1 again — the index
IS reused after a deletion, because the next index is recomputed as
`max(existing) + 1` over whatever currently remains. -/
theorem C1_counterexample :
    (saveImage [] true).1 = some 1 ∧
    deleteImagesForConversation (saveImage [] true).2 = [] ∧
    (saveImage (deleteImagesForConversation (saveImage [] true).2) true).1 =
      some 1 :=
  ⟨rfl, rfl, rfl⟩

/-- C1 amended: a successful `saveImage` returns
`max(parsed indices of existing .png files) + 1`, which exceeds every
index currently present; over any sequence of `saveImage` calls with no
intervening deletion the returned indices are strictly increasing and
never reused, even when some saves fail (a failed save returns null and
leaves the directory unchanged).  After a deletion lowers the maximum,
an index can be reused. -/
theorem C1_next_index_is_max_plus_one (imagesDir : List DirEntry)
    (oks : List Bool) :
    (saveImage imagesDir true).1 = some (maxPngIndex imagesDir + 1) ∧
    (∀ e ∈ imagesDir, ∀ num : Int, e.isFile = true →
      listEndsWith e.name pngChars = true →
      jsParseInt (listReplaceFirst e.name pngChars) = some num →
      num < maxPngIndex imagesDir + 1) ∧
    List.Pairwise (fun a b : Int => a < b) (runSaves oks imagesDir).1 ∧
    (saveImage imagesDir false).1 = none ∧
    (saveImage imagesDir false).2 = imagesDir := by
  refine ⟨rfl, ?_, runSaves_pairwise oks imagesDir, rfl, rfl⟩
  intro e he num h1 h2 h3
  have := maxPng_foldl_mem imagesDir 0 e he num h1 h2 h3
  show num < maxPngIndex imagesDir + 1
  unfold maxPngIndex
  omega

/-- C1 amended witness: a directory holding "3.png" gives index 4,
which exceeds the existing index 3, and a run of saves yields strictly
increasing indices. -/
theorem C1_next_index_is_max_plus_one_witness :
    (saveImage [⟨['3', '.', 'p', 'n', 'g'], true⟩] true).1 = some 4 ∧
    (3 : Int) < maxPngIndex [⟨['3', '.', 'p', 'n', 'g'], true⟩] + 1 ∧
    List.Pairwise (fun a b : Int => a < b)
      (runSaves [true, false, true] [⟨['3', '.', 'p', 'n', 'g'], true⟩]).1 := by
  have h := C1_next_index_is_max_plus_one
    [⟨['3', '.', 'p', 'n', 'g'], true⟩] [true, false, true]
  refine ⟨?_, ?_, h.2.2.1⟩
  · rw [h.1, show maxPngIndex [⟨['3', '.', 'p', 'n', 'g'], true⟩] = 3 from by
      decide]
    norm_num
  · exact h.2.1 ⟨['3', '.', 'p', 'n', 'g'], true⟩ (by simp) 3 rfl
      (by decide) (by decide)

end LlmImageCreator


